import Mathlib

/-!
Verification of adammck/django-monkey-patching.

The repository splices an auxiliary ("extension") class into a Django
model's `__bases__` at runtime, after checking for attribute conflicts
and copying the extension's declared Django fields onto the model via
`add_to_class`.  Two implementations exist:

 * `src/monkeypatch/utils.py` — the function form
   (`monkey_patch`, `sanity_check`, `apply_patch`, `fields`,
   `conflicts`, `non_magic_attrs`, `is_magic`), embedded below in
   namespace `Monkeypatch`;
 * `src/utils.py` — the decorator form (`monkey_patch(parent)`
   returning a `wrapper(ext)` closure, plus its own `is_magic`),
   embedded below in namespace `Utils`.

A Python class is modelled by the record `PyClass`: the aspects of the
CPython/Django object model that the two files actually read or write —
the class name, whether it is a subclass of `django.db.models.Model`,
whether it has a `_meta` attribute, the `_meta.fields` list, the own
namespace `__dict__`, the `dir()` listing, and the `__bases__` tuple
(kept as a list of class names).  A Django `Field` is modelled by the
two attributes the code inspects: `null` and `auto_created`.

Exceptions are modelled by the inductive `PyError`, one constructor per
`raise` site; a stateful call returns the final state of the mutated
class paired with `Option PyError` (`none` = the call returned
normally), because a raising call in Python still leaves behind any
mutation it performed before raising.
-/

namespace Django

/-- A Django field, reduced to the two attributes the repository reads:
`f.null` (nullability) and `f.auto_created` (set by Django only on
automatically created fields such as primary keys, never on fields
declared in a class body). -/
structure Field where
  null : Bool
  auto_created : Bool
deriving DecidableEq

end Django

/-- An entry of a class `__dict__`: either a Django `Field` instance
(`isinstance(f, models.Field)` holds) or any other attribute (method,
property, plain value). -/
inductive Attr where
  | field (f : Django.Field)
  | plain
deriving DecidableEq

/-- The slice of a Python class that the repository's code observes and
mutates. `bases` is `__bases__` as a list of class names; `dirList` is
`dir(cls)`; `dict` is the own namespace `__dict__`; `metaFields` is
`_meta.fields` as (attname, field) pairs, meaningful when `hasMeta`. -/
structure PyClass where
  name : String
  isModel : Bool
  hasMeta : Bool
  metaFields : List (String × Django.Field)
  dict : List (String × Attr)
  dirList : List String
  bases : List String
deriving DecidableEq

/-- The exceptions raised by the repository, one constructor per raise
site.  `attributeErrorConflict` carries the conflict set itself (the
Python message joins the set in hash order, so the set is the
order-independent content); `typeErrorFieldNotNull` carries the
extension class name and the field's dict key. -/
inductive PyError where
  | typeErrorNotModel (className : String)
  | typeErrorExtIsModel (className : String)
  | attributeErrorConflict (names : Finset String) (destName : String)
  | attributeErrorAlreadyDefined (parentName attrName : String)
  | typeErrorFieldNotNull (extName fieldName : String)
deriving DecidableEq

/-- Models `dest.add_to_class(name, f)` for a Django field: Django's
`contribute_to_class` appends the field to `dest._meta.fields`
(keeping the field's own `auto_created` flag). -/
def add_to_class (dest : PyClass) (name : String) (f : Django.Field) : PyClass :=
  { dest with metaFields := dest.metaFields ++ [(name, f)] }

/-- Models `dest.__bases__ += (source,)`: the source class becomes the new last
base, and its `dir()` entries become visible on `dest` (CPython derives
`dir` from the MRO, so the model updates it alongside). -/
def append_base (dest source : PyClass) : PyClass :=
  { dest with
    bases := dest.bases ++ [source.name]
    dirList := dest.dirList ++ source.dirList.filter (fun a => !dest.dirList.contains a) }

/-- The Django-field entries of a class `__dict__`, in namespace order:
the `isinstance(f, models.Field)` filter both files perform. -/
def dict_fields (obj : PyClass) : List (String × Django.Field) :=
  obj.dict.filterMap (fun p =>
    match p.2 with
    | Attr.field f => some (p.1, f)
    | Attr.plain => none)

/-- Python's `str.startswith(pre)`: `pre` is a prefix of the character
sequence of `s`. -/
def startswith (s pre : String) : Bool :=
  pre.data.isPrefixOf s.data

/-- Python's `str.endswith(suf)`: `suf` is a suffix of the character
sequence of `s`. -/
def endswith (s suf : String) : Bool :=
  suf.data.isSuffixOf s.data

/-- The field-copying loop shared verbatim by `apply_patch`
(src/monkeypatch/utils.py) and the decorator's `wrapper` (src/utils.py):
for each (name, f) in order, raise TypeError if `not f.null`, else
`dest.add_to_class(name, f)`.  On a raise the state reached so far is
returned with the error.  (The decorator formats `field.name` into its
message where the function form formats the dict key; the model records
the dict key in both.) -/
def patch_fields (src_name : String) (dest : PyClass) :
    List (String × Django.Field) → PyClass × Option PyError
  | [] => (dest, none)
  | (name, f) :: rest =>
    if f.null = false then
      (dest, some (PyError.typeErrorFieldNotNull src_name name))
    else
      patch_fields src_name (add_to_class dest name f) rest

namespace Monkeypatch

/-- Embeds `is_magic(name)` from src/monkeypatch/utils.py:
`name.startswith("__") and name.endswith("__") and len(name) >= 5`. -/
def is_magic (name : String) : Bool :=
  startswith name "__" && endswith name "__" && decide (5 ≤ name.length)

/-- Embeds `non_magic_attrs(obj)`: the set of non-magic names in `dir(obj)`. -/
def non_magic_attrs (obj : PyClass) : Finset String :=
  (obj.dirList.filter (fun a => !is_magic a)).toFinset

/-- Embeds `fields(obj)`: if the object has `_meta`, the (attname, field) pairs
of `_meta.fields` with `auto_created is False`; otherwise the
`__dict__` entries that are Django `Field` instances.  (The Python
wraps the pair list in `dict(...)`; keys are unique in both branches,
so the list carries the same content.) -/
def fields (obj : PyClass) : List (String × Django.Field) :=
  if obj.hasMeta then
    obj.metaFields.filter (fun p => p.2.auto_created = false)
  else
    dict_fields obj

/-- The lambda mapped over `[dest, source]` inside `conflicts`:
`set.union(set(fields(obj).keys()), non_magic_attrs(obj))`. -/
def attr_union (obj : PyClass) : Finset String :=
  ((fields obj).map Prod.fst).toFinset ∪ non_magic_attrs obj

/-- Embeds `conflicts(dest, source)`: `set.intersection(d, s)` of the two
per-class unions. -/
def conflicts (dest source : PyClass) : Finset String :=
  attr_union dest ∩ attr_union source

/-- Embeds `sanity_check(dest, source)`: TypeError unless `dest` is a Django
model; TypeError if `source` is one; AttributeError if `conflicts`
is non-empty. -/
def sanity_check (dest source : PyClass) : Except PyError Unit :=
  if dest.isModel = false then
    Except.error (PyError.typeErrorNotModel dest.name)
  else if source.isModel = true then
    Except.error (PyError.typeErrorExtIsModel source.name)
  else
    let confl := conflicts dest source
    if confl = ∅ then Except.ok ()
    else Except.error (PyError.attributeErrorConflict confl dest.name)

/-- Embeds `apply_patch(dest, source)`: first `dest.__bases__ += (source,)`,
then the field loop over `fields(source).items()`. -/
def apply_patch (dest source : PyClass) : PyClass × Option PyError :=
  patch_fields source.name (append_base dest source) (fields source)

/-- Embeds `monkey_patch(parent, extension)`: `sanity_check` then
`apply_patch` (the Python returns `True` on success; the model returns
the final state of `parent` with `none`). -/
def monkey_patch (parent extension : PyClass) : PyClass × Option PyError :=
  match sanity_check parent extension with
  | Except.error e => (parent, some e)
  | Except.ok () => apply_patch parent extension

/-- Embeds `decorator(parent)` returning `wrapper(extension)`: the curried form
of `monkey_patch` in the same file. -/
def decorator (parent extension : PyClass) : PyClass × Option PyError :=
  monkey_patch parent extension

end Monkeypatch

namespace Utils

/-- Embeds `is_magic(name)` from src/utils.py (textually identical to the
other file's). -/
def is_magic (name : String) : Bool :=
  startswith name "__" && endswith name "__" && decide (5 ≤ name.length)

/-- The composition of `monkey_patch(parent)` (src/utils.py) and the
`wrapper(ext)` closure it returns, as applied by the decorator syntax:
reject a non-model parent (at decoration), reject a model extension,
scan `dir(ext)` for the first non-magic name also in `dir(parent)`,
copy the extension's `__dict__` fields (rejecting non-nullable ones),
and only then append `ext` to `parent.__bases__`. -/
def monkey_patch (parent ext : PyClass) : PyClass × Option PyError :=
  if parent.isModel = false then
    (parent, some (PyError.typeErrorNotModel parent.name))
  else if ext.isModel = true then
    (parent, some (PyError.typeErrorExtIsModel ext.name))
  else
    match ext.dirList.find? (fun a => !is_magic a && parent.dirList.contains a) with
    | some a => (parent, some (PyError.attributeErrorAlreadyDefined parent.name a))
    | none =>
      match patch_fields ext.name parent (dict_fields ext) with
      | (p1, some er) => (p1, some er)
      | (p1, none) => (append_base p1 ext, none)

end Utils

/-! ## Concrete example classes (mirroring the doctest examples) -/

/-- A nullable field with no auto_created flag, as declared by
`models.BooleanField(null=True, blank=True)`. -/
def beardField : Django.Field := { null := true, auto_created := false }

/-- A non-nullable field, as declared by `models.CharField(max_length=200)`
(Django fields default to `null=False`). -/
def requiredField : Django.Field := { null := false, auto_created := false }

/-- The auto-created primary key Django adds to every concrete model. -/
def autoPk : Django.Field := { null := false, auto_created := true }

/-- The `Human` model of the doctests: a Django model whose `_meta`
holds the auto pk and a declared field `first`; its declared field
names do not show up in `dir()` under the Django of this repository. -/
def Human : PyClass :=
  { name := "Human"
    isModel := true
    hasMeta := true
    metaFields := [("id", autoPk), ("first", requiredField)]
    dict := []
    dirList := ["__init__", "__doc__"]
    bases := ["Model"] }

/-- The `HumanBeardExtension` of the doctests: a plain class declaring
one nullable field and a property. -/
def HumanBeardExtension : PyClass :=
  { name := "HumanBeardExtension"
    isModel := false
    hasMeta := false
    metaFields := []
    dict := [("has_beard", Attr.field beardField), ("is_manly", Attr.plain)]
    dirList := ["__init__", "__doc__", "has_beard", "is_manly"]
    bases := ["object"] }

/-- An extension declaring a single non-nullable field under a fresh
name, so that `sanity_check` passes but the field migration raises. -/
def RequiredExtension : PyClass :=
  { name := "RequiredExtension"
    isModel := false
    hasMeta := false
    metaFields := []
    dict := [("req_field", Attr.field requiredField)]
    dirList := ["__init__", "__doc__", "req_field"]
    bases := ["object"] }

/-- An extension whose only attribute collides with the model field
name `first` — a name present in `Human`'s `_meta` but not in its
`dir()` listing. -/
def FirstExtension : PyClass :=
  { name := "FirstExtension"
    isModel := false
    hasMeta := false
    metaFields := []
    dict := [("first", Attr.plain)]
    dirList := ["__init__", "__doc__", "first"]
    bases := ["object"] }

/-! ## Helper lemmas -/

instance : DecidableEq (Except PyError Unit) := fun a b =>
  match a, b with
  | Except.ok u, Except.ok v => isTrue (by cases u; cases v; rfl)
  | Except.error x, Except.error y =>
    if h : x = y then isTrue (by rw [h]) else isFalse (fun hc => h (by injection hc))
  | Except.ok _, Except.error _ => isFalse (fun hc => Except.noConfusion hc)
  | Except.error _, Except.ok _ => isFalse (fun hc => Except.noConfusion hc)

theorem add_to_class_bases (d : PyClass) (n : String) (f : Django.Field) :
    (add_to_class d n f).bases = d.bases := rfl

theorem add_to_class_dirList (d : PyClass) (n : String) (f : Django.Field) :
    (add_to_class d n f).dirList = d.dirList := rfl

theorem patch_fields_fst_bases (sn : String) (d : PyClass)
    (fs : List (String × Django.Field)) :
    (patch_fields sn d fs).1.bases = d.bases := by
  induction fs generalizing d with
  | nil => rfl
  | cons x rest ih =>
    obtain ⟨n, f⟩ := x
    by_cases h : f.null = false
    · simp [patch_fields, h]
    · simp [patch_fields, h, ih, add_to_class]

theorem patch_fields_snd_indep (sn : String) (d d' : PyClass)
    (fs : List (String × Django.Field)) :
    (patch_fields sn d fs).2 = (patch_fields sn d' fs).2 := by
  induction fs generalizing d d' with
  | nil => rfl
  | cons x rest ih =>
    obtain ⟨n, f⟩ := x
    by_cases h : f.null = false
    · simp [patch_fields, h]
    · simp [patch_fields, h]
      exact ih _ _

theorem patch_fields_ok_iff (sn : String) (d : PyClass)
    (fs : List (String × Django.Field)) :
    (patch_fields sn d fs).2 = none ↔ ∀ x ∈ fs, x.2.null = true := by
  induction fs generalizing d with
  | nil => simp [patch_fields]
  | cons x rest ih =>
    obtain ⟨n, f⟩ := x
    by_cases h : f.null = false
    · simp [patch_fields, h]
    · simp only [Bool.not_eq_false] at h
      simp [patch_fields, h, ih]

theorem patch_fields_ok_fst (sn : String) (d : PyClass)
    (fs : List (String × Django.Field)) (h : ∀ x ∈ fs, x.2.null = true) :
    (patch_fields sn d fs).1 = { d with metaFields := d.metaFields ++ fs } := by
  induction fs generalizing d with
  | nil => simp [patch_fields]
  | cons x rest ih =>
    obtain ⟨n, f⟩ := x
    have hf : f.null = true := h (n, f) (by simp)
    simp only [patch_fields, hf]
    simp only [Bool.true_eq_false, if_false]
    rw [ih (add_to_class d n f) (fun x hx => h x (by simp [hx]))]
    simp [add_to_class]

theorem patch_fields_err_shape (sn : String) (d : PyClass)
    (fs : List (String × Django.Field)) (er : PyError)
    (h : (patch_fields sn d fs).2 = some er) :
    ∃ n f, er = PyError.typeErrorFieldNotNull sn n ∧ (n, f) ∈ fs ∧ f.null = false := by
  induction fs generalizing d with
  | nil => simp [patch_fields] at h
  | cons x rest ih =>
    obtain ⟨n, f⟩ := x
    by_cases hf : f.null = false
    · simp [patch_fields, hf] at h
      exact ⟨n, f, h.symm, by simp, hf⟩
    · simp only [patch_fields, hf, if_false] at h
      obtain ⟨n', f', he, hm, hn⟩ := ih _ h
      exact ⟨n', f', he, by simp [hm], hn⟩

theorem sanity_check_ok_iff (p e : PyClass) :
    Monkeypatch.sanity_check p e = Except.ok () ↔
      (p.isModel = true ∧ e.isModel = false ∧ Monkeypatch.conflicts p e = ∅) := by
  unfold Monkeypatch.sanity_check
  by_cases hp : p.isModel = false
  · simp [hp]
  · simp only [Bool.not_eq_false] at hp
    by_cases he : e.isModel = true
    · simp [hp, he]
    · simp only [Bool.not_eq_true] at he
      by_cases hc : Monkeypatch.conflicts p e = ∅ <;> simp [hp, he, hc]

theorem mem_non_magic_attrs (obj : PyClass) (a : String) :
    a ∈ Monkeypatch.non_magic_attrs obj ↔
      (a ∈ obj.dirList ∧ Monkeypatch.is_magic a = false) := by
  simp [Monkeypatch.non_magic_attrs, List.mem_filter, List.mem_toFinset]

/-! ## Claim theorems -/

/-- C3: for every pair of classes (dest, source), `conflicts(dest, source)`
is exactly the intersection of the two per-class sets, each the union of
the class's declared persisted-field names (`fields`) and its non-dunder
attribute names (`non_magic_attrs`). -/
theorem conflicts_is_intersection_of_unions (dest source : PyClass) (a : String) :
    a ∈ Monkeypatch.conflicts dest source ↔
      ((a ∈ (Monkeypatch.fields dest).map Prod.fst ∨ a ∈ Monkeypatch.non_magic_attrs dest) ∧
       (a ∈ (Monkeypatch.fields source).map Prod.fst ∨ a ∈ Monkeypatch.non_magic_attrs source)) := by
  simp [Monkeypatch.conflicts, Monkeypatch.attr_union, Finset.mem_inter, Finset.mem_union,
    List.mem_toFinset]

/-- C9: `conflicts` is symmetric in its two class arguments. -/
theorem conflicts_symmetric (a b : PyClass) :
    Monkeypatch.conflicts a b = Monkeypatch.conflicts b a :=
  Finset.inter_comm _ _

/-- C8: `is_magic(name)` holds exactly when the name starts with `__`,
ends with `__`, and has length at least 5; both files define the same
predicate, and the concrete names behave as claimed ("_", "__", "___",
"____", "_gamma", "__delta" are not magic; "__beta__" is). -/
theorem is_magic_dunder_spec :
    (∀ name : String, Monkeypatch.is_magic name = true ↔
        (['_', '_'] <+: name.data ∧ ['_', '_'] <:+ name.data ∧ 5 ≤ name.length)) ∧
    (∀ name : String, Utils.is_magic name = Monkeypatch.is_magic name) ∧
    Monkeypatch.is_magic "_" = false ∧
    Monkeypatch.is_magic "__" = false ∧
    Monkeypatch.is_magic "___" = false ∧
    Monkeypatch.is_magic "____" = false ∧
    Monkeypatch.is_magic "_gamma" = false ∧
    Monkeypatch.is_magic "__delta" = false ∧
    Monkeypatch.is_magic "__beta__" = true := by
  refine ⟨fun name => ?_, fun name => rfl, by decide, by decide, by decide, by decide,
    by decide, by decide, by decide⟩
  simp [Monkeypatch.is_magic, startswith, endswith, Bool.and_eq_true,
    List.isPrefixOf_iff_prefix, List.isSuffixOf_iff_suffix, and_assoc]

theorem mem_dict_fields (obj : PyClass) (name : String) (f : Django.Field) :
    (name, f) ∈ dict_fields obj ↔ (name, Attr.field f) ∈ obj.dict := by
  rw [dict_fields, List.mem_filterMap]
  constructor
  · rintro ⟨⟨n, a⟩, hmem, heq⟩
    cases a with
    | field g =>
      simp at heq
      obtain ⟨h1, h2⟩ := heq
      subst h1
      subst h2
      exact hmem
    | plain => simp at heq
  · intro hmem
    exact ⟨(name, Attr.field f), hmem, rfl⟩

/-- C10: on an object without `_meta` (a plain class, as extension
classes are), `fields` returns exactly the Django `Field` entries bound
in the object's own `__dict__`; in particular a field declared only on
an ancestor (hence absent from the own namespace) is not returned, so
the splice never migrates it. -/
theorem fields_plain_class_own_namespace (obj : PyClass) (h : obj.hasMeta = false)
    (name : String) (f : Django.Field) :
    (name, f) ∈ Monkeypatch.fields obj ↔ (name, Attr.field f) ∈ obj.dict := by
  have hf : Monkeypatch.fields obj = dict_fields obj := by
    simp [Monkeypatch.fields, h]
  rw [hf]
  exact mem_dict_fields obj name f

/-- Witness for C10 at the doctest extension class. -/
theorem fields_plain_class_own_namespace_witness :
    ("has_beard", beardField) ∈ Monkeypatch.fields HumanBeardExtension :=
  (fields_plain_class_own_namespace HumanBeardExtension rfl "has_beard" beardField).mpr
    (by decide)

/-- C4: for a model parent and non-model extension, `sanity_check` (and
hence `monkey_patch`) raises an AttributeError carrying exactly the
conflicting attribute names if and only if the conflict set is
non-empty, and raises nothing when the conflict set is empty. -/
theorem sanity_check_conflict_detection (p e : PyClass)
    (hp : p.isModel = true) (he : e.isModel = false) :
    (Monkeypatch.sanity_check p e =
        Except.error (PyError.attributeErrorConflict (Monkeypatch.conflicts p e) p.name) ↔
      Monkeypatch.conflicts p e ≠ ∅) ∧
    (Monkeypatch.conflicts p e = ∅ → Monkeypatch.sanity_check p e = Except.ok ()) ∧
    ((Monkeypatch.monkey_patch p e).2 =
        some (PyError.attributeErrorConflict (Monkeypatch.conflicts p e) p.name) ↔
      Monkeypatch.conflicts p e ≠ ∅) := by
  have hok : Monkeypatch.conflicts p e = ∅ → Monkeypatch.sanity_check p e = Except.ok () :=
    fun hc => (sanity_check_ok_iff p e).mpr ⟨hp, he, hc⟩
  have herr : Monkeypatch.conflicts p e ≠ ∅ →
      Monkeypatch.sanity_check p e =
        Except.error (PyError.attributeErrorConflict (Monkeypatch.conflicts p e) p.name) := by
    intro hc
    simp [Monkeypatch.sanity_check, hp, he, hc]
  refine ⟨⟨fun hs hc => ?_, herr⟩, hok, ⟨fun hs hc => ?_, fun hc => ?_⟩⟩
  · rw [hok hc] at hs
    exact Except.noConfusion hs
  · rw [Monkeypatch.monkey_patch, hok hc] at hs
    have := patch_fields_err_shape _ _ _ _ hs
    obtain ⟨n, f, hef, -, -⟩ := this
    exact PyError.noConfusion hef
  · rw [Monkeypatch.monkey_patch, herr hc]

/-- Witness for C4 at `Human` and `FirstExtension`, whose only
attribute collides with the model field name `first`. -/
theorem sanity_check_conflict_detection_witness :
    Monkeypatch.sanity_check Human FirstExtension =
      Except.error (PyError.attributeErrorConflict
        (Monkeypatch.conflicts Human FirstExtension) Human.name) :=
  (sanity_check_conflict_detection Human FirstExtension rfl rfl).1.mpr (by decide)

/-- C5: the splice (`apply_patch`) raises exactly when some extension
field is declared non-nullable, the exception is a TypeError about a
non-nullable extension field, and after a successful call every
extension field name is among the record type's persisted fields.  The
hypotheses record that the record type has `_meta` (it is a model) and
that declared extension fields are not auto-created (Django sets
`auto_created` only on fields it generates itself). -/
theorem apply_patch_field_migration (p e : PyClass) (hmeta : p.hasMeta = true)
    (hauto : ∀ x ∈ Monkeypatch.fields e, x.2.auto_created = false) :
    ((Monkeypatch.apply_patch p e).2.isSome = true ↔
      ∃ x ∈ Monkeypatch.fields e, x.2.null = false) ∧
    (∀ er, (Monkeypatch.apply_patch p e).2 = some er →
      ∃ n f, er = PyError.typeErrorFieldNotNull e.name n ∧
        (n, f) ∈ Monkeypatch.fields e ∧ f.null = false) ∧
    ((Monkeypatch.apply_patch p e).2 = none →
      ∀ x ∈ Monkeypatch.fields e,
        x.1 ∈ (Monkeypatch.fields (Monkeypatch.apply_patch p e).1).map Prod.fst) := by
  refine ⟨?_, ?_, ?_⟩
  · rw [Monkeypatch.apply_patch]
    rw [Option.isSome_iff_ne_none, ne_eq, patch_fields_ok_iff]
    simp
  · intro er her
    exact patch_fields_err_shape _ _ _ _ her
  · intro hok x hx
    have hnull : ∀ y ∈ Monkeypatch.fields e, y.2.null = true :=
      (patch_fields_ok_iff _ _ _).mp hok
    have hfst : (Monkeypatch.apply_patch p e).1 =
        { append_base p e with
          metaFields := (append_base p e).metaFields ++ Monkeypatch.fields e } :=
      patch_fields_ok_fst _ _ _ hnull
    rw [hfst]
    have hmeta2 : p.hasMeta = true := hmeta
    obtain ⟨n, f⟩ := x
    have hmem : (n, f) ∈ (append_base p e).metaFields ++ Monkeypatch.fields e :=
      List.mem_append_right _ hx
    have hkeep : (n, f) ∈
        ((append_base p e).metaFields ++ Monkeypatch.fields e).filter
          (fun q => q.2.auto_created = false) := by
      rw [List.mem_filter]
      exact ⟨hmem, by simpa using hauto (n, f) hx⟩
    have : Monkeypatch.fields
        { append_base p e with
          metaFields := (append_base p e).metaFields ++ Monkeypatch.fields e } =
        ((append_base p e).metaFields ++ Monkeypatch.fields e).filter
          (fun q => q.2.auto_created = false) := by
      simp [Monkeypatch.fields, append_base, hmeta2]
    rw [this]
    exact List.mem_map_of_mem Prod.fst hkeep

/-- Witness for C5 at `Human` and the doctest beard extension: the call
succeeds and `has_beard` lands among the model's fields. -/
theorem apply_patch_field_migration_witness :
    (Monkeypatch.apply_patch Human HumanBeardExtension).2 = none ∧
    "has_beard" ∈
      (Monkeypatch.fields (Monkeypatch.apply_patch Human HumanBeardExtension).1).map
        Prod.fst := by
  have h := apply_patch_field_migration Human HumanBeardExtension rfl (by decide)
  refine ⟨by decide, h.2.2 (by decide) ("has_beard", beardField) (by decide)⟩

/-- C6: a successful call of either form appends the auxiliary type as
the single new last element of the record type's ancestor tuple,
keeping every pre-existing ancestor in order. -/
theorem success_appends_single_base (p e : PyClass) :
    ((Monkeypatch.monkey_patch p e).2 = none →
      (Monkeypatch.monkey_patch p e).1.bases = p.bases ++ [e.name]) ∧
    ((Utils.monkey_patch p e).2 = none →
      (Utils.monkey_patch p e).1.bases = p.bases ++ [e.name]) := by
  constructor
  · intro hok
    rw [Monkeypatch.monkey_patch] at hok ⊢
    cases hs : Monkeypatch.sanity_check p e with
    | error er => simp [hs] at hok
    | ok u =>
      cases u
      simp only [hs]
      rw [Monkeypatch.apply_patch, patch_fields_fst_bases]
      rfl
  · intro hok
    rw [Utils.monkey_patch] at hok ⊢
    cases hpm : p.isModel with
    | false =>
      rw [hpm] at hok
      rw [if_pos rfl] at hok
      simp at hok
    | true =>
      rw [hpm] at hok
      rw [if_neg (by simp)] at hok ⊢
      cases hem : e.isModel with
      | true =>
        rw [hem] at hok
        rw [if_pos rfl] at hok
        simp at hok
      | false =>
        rw [hem] at hok
        rw [if_neg (by simp)] at hok ⊢
        cases hf : List.find? (fun a => !Utils.is_magic a && p.dirList.contains a)
            e.dirList with
        | some a =>
          rw [hf] at hok
          simp at hok
        | none =>
          rw [hf] at hok
          cases hpf : patch_fields e.name p (dict_fields e) with
          | mk p1 err =>
            rw [hpf] at hok
            cases err with
            | some er => simp at hok
            | none =>
              have hb : p1.bases = p.bases := by
                have h2 := patch_fields_fst_bases e.name p (dict_fields e)
                rw [hpf] at h2
                exact h2
              simp [append_base, hb]

/-- Witness for C6 at `Human` and the doctest beard extension, for both
forms. -/
theorem success_appends_single_base_witness :
    (Monkeypatch.monkey_patch Human HumanBeardExtension).1.bases =
      Human.bases ++ [HumanBeardExtension.name] ∧
    (Utils.monkey_patch Human HumanBeardExtension).1.bases =
      Human.bases ++ [HumanBeardExtension.name] :=
  ⟨(success_appends_single_base Human HumanBeardExtension).1 (by decide),
   (success_appends_single_base Human HumanBeardExtension).2 (by decide)⟩

/-- The two files define the same magic-name predicate. -/
theorem utils_is_magic_eq (a : String) : Utils.is_magic a = Monkeypatch.is_magic a := rfl

/-- C1 counterexample: `monkey_patch` raises on `RequiredExtension`
(its only field is non-nullable), yet the record type's ancestor tuple
has changed — the extension was appended before the field check. -/
theorem monkey_patch_raise_mutates_cex :
    (Monkeypatch.monkey_patch Human RequiredExtension).2.isSome = true ∧
    (Monkeypatch.monkey_patch Human RequiredExtension).1.bases ≠ Human.bases := by
  decide

/-- C1 amended: a raise coming out of `sanity_check` (parent not a
model, extension a model, or attribute conflict) leaves the record type
entirely unchanged; but a raise on a non-nullable extension field
happens after the auxiliary type was already appended to the record
type's ancestor tuple. -/
theorem monkey_patch_failure_state (p e : PyClass) :
    (∀ er, Monkeypatch.sanity_check p e = Except.error er →
      Monkeypatch.monkey_patch p e = (p, some er)) ∧
    (Monkeypatch.sanity_check p e = Except.ok () →
      (Monkeypatch.monkey_patch p e).2.isSome = true →
      (Monkeypatch.monkey_patch p e).1.bases = p.bases ++ [e.name]) := by
  constructor
  · intro er her
    rw [Monkeypatch.monkey_patch, her]
  · intro hs _
    rw [Monkeypatch.monkey_patch, hs, Monkeypatch.apply_patch, patch_fields_fst_bases]
    rfl

/-- Witness for C1 amended at `Human` and `RequiredExtension`: the call
raises yet the bases already hold the extension. -/
theorem monkey_patch_failure_state_witness :
    (Monkeypatch.monkey_patch Human RequiredExtension).1.bases =
      Human.bases ++ [RequiredExtension.name] :=
  (monkey_patch_failure_state Human RequiredExtension).2 (by decide) (by decide)

/-- C2 counterexample: on `RequiredExtension` the field migration fails
(the call ends in a TypeError about the non-nullable field), yet the
auxiliary type has already been appended to the record type's ancestor
tuple — so the append does not wait for all fields to be handled. -/
theorem splice_order_cex :
    (Monkeypatch.monkey_patch Human RequiredExtension).2 =
      some (PyError.typeErrorFieldNotNull "RequiredExtension" "req_field") ∧
    (Monkeypatch.monkey_patch Human RequiredExtension).1.bases =
      Human.bases ++ [RequiredExtension.name] := by
  decide

/-- C2 amended: each call runs the attribute-conflict check
(`sanity_check`) first and aborts with the record type untouched when
it fails; on success the auxiliary type is appended to the record
type's ancestor tuple **before** the schema-field migration, which then
checks and copies the extension fields one by one. -/
theorem monkey_patch_sequencing (p e : PyClass) :
    Monkeypatch.monkey_patch p e =
      match Monkeypatch.sanity_check p e with
      | Except.error er => (p, some er)
      | Except.ok _ => patch_fields e.name (append_base p e) (Monkeypatch.fields e) := by
  rw [Monkeypatch.monkey_patch]
  cases Monkeypatch.sanity_check p e with
  | error er => rfl
  | ok u =>
    cases u
    rfl

/-- C7 counterexample: on `Human` and `FirstExtension` the decorator
form succeeds while the function form raises — the function form's
conflict check sees the model field name `first` through `_meta`, which
the decorator form's `dir()`-based scan does not. -/
theorem forms_inequivalent_cex :
    (Utils.monkey_patch Human FirstExtension).2 = none ∧
    (Monkeypatch.monkey_patch Human FirstExtension).2.isSome = true := by
  decide

/-- C7 amended: the forms are not equivalent, but the function form
refines the decorator form: whenever the function form succeeds on a
parent and a plain (meta-less) extension, the decorator form succeeds
too and produces the identical final state — same ancestor tuple and
same persisted fields.  (The function form rejects strictly more pairs:
collisions visible only through `_meta` field names.) -/
theorem function_form_refines_decorator (p e : PyClass) (hm : e.hasMeta = false)
    (hok : (Monkeypatch.monkey_patch p e).2 = none) :
    Utils.monkey_patch p e = Monkeypatch.monkey_patch p e := by
  have hs : Monkeypatch.sanity_check p e = Except.ok () := by
    cases h : Monkeypatch.sanity_check p e with
    | error er =>
      rw [Monkeypatch.monkey_patch, h] at hok
      simp at hok
    | ok u =>
      cases u
      rfl
  obtain ⟨hp, he, hc⟩ := (sanity_check_ok_iff p e).mp hs
  have hfe : Monkeypatch.fields e = dict_fields e := by
    simp [Monkeypatch.fields, hm]
  have hmp : Monkeypatch.monkey_patch p e =
      patch_fields e.name (append_base p e) (dict_fields e) := by
    rw [Monkeypatch.monkey_patch, hs, Monkeypatch.apply_patch, hfe]
  have hnull : ∀ x ∈ dict_fields e, x.2.null = true := by
    rw [hmp] at hok
    exact (patch_fields_ok_iff _ _ _).mp hok
  have hfind : List.find? (fun a => !Utils.is_magic a && p.dirList.contains a) e.dirList
      = none := by
    rw [List.find?_eq_none]
    intro a ha hcontra
    rw [Bool.and_eq_true] at hcontra
    obtain ⟨hnm, hin⟩ := hcontra
    rw [Bool.not_eq_true', utils_is_magic_eq] at hnm
    have hmem_e : a ∈ Monkeypatch.non_magic_attrs e :=
      (mem_non_magic_attrs e a).mpr ⟨ha, hnm⟩
    have hmem_p : a ∈ Monkeypatch.non_magic_attrs p :=
      (mem_non_magic_attrs p a).mpr ⟨by simpa using hin, hnm⟩
    have hconf : a ∈ Monkeypatch.conflicts p e := by
      rw [Monkeypatch.conflicts, Finset.mem_inter]
      exact ⟨Finset.mem_union_right _ hmem_p, Finset.mem_union_right _ hmem_e⟩
    rw [hc] at hconf
    exact absurd hconf (Finset.not_mem_empty a)
  have hpf_ok : (patch_fields e.name p (dict_fields e)).2 = none := by
    rw [patch_fields_ok_iff]
    exact hnull
  have hutils : Utils.monkey_patch p e =
      (append_base (patch_fields e.name p (dict_fields e)).1 e, none) := by
    rw [Utils.monkey_patch]
    rw [if_neg (by simp [hp])]
    rw [if_neg (by simp [he])]
    rw [hfind]
    cases hpe : patch_fields e.name p (dict_fields e) with
    | mk p1 err =>
      rw [hpe] at hpf_ok
      cases err with
      | some er => simp at hpf_ok
      | none => rfl
  have hmps : Monkeypatch.monkey_patch p e =
      ({ append_base p e with
          metaFields := (append_base p e).metaFields ++ dict_fields e }, none) := by
    rw [hmp]
    exact Prod.ext (patch_fields_ok_fst _ _ _ hnull)
      (by rw [patch_fields_ok_iff]; exact hnull)
  rw [hutils, hmps, patch_fields_ok_fst _ _ _ hnull]
  simp [append_base]

/-- Witness for C7 amended at `Human` and the doctest beard extension:
the function form succeeds and the decorator form agrees exactly. -/
theorem function_form_refines_decorator_witness :
    Utils.monkey_patch Human HumanBeardExtension =
      Monkeypatch.monkey_patch Human HumanBeardExtension :=
  function_form_refines_decorator Human HumanBeardExtension rfl (by decide)
